import Mathlib

/-!
A shallow embedding of the video library management core of the `ute`
repository (Go), together with proofs about it.

Strings are modelled as `List Char` (`Str`), paths are Unix-style with
separator `'/'`.  Machine integers (`int64`, unix timestamps) are modelled
as `Int`; no claimed operation overflows them.  `float64` fields that are
only carried, never computed with (`Duration`), are modelled as `Int`.
Effects of the external subprocess and of the operating system (the state
of the file system after a download, I/O failures) are supplied as explicit
"world" records, so that every code path of the Go functions is a case of a
total Lean function.
-/

namespace Ute

/-- Strings from the Go source, as lists of characters. -/
abbrev Str := List Char

/-- Convenience conversion from Lean string literals. -/
def str (s : String) : Str := s.toList

/-- `strings.ToLower` (ASCII case folding suffices for the claims). -/
def toLowerStr (s : Str) : Str := s.map Char.toLower

/-- Does `pat` start the string `s`?  (Used for `strings.HasPrefix` with
arguments `HasPrefix s pat = strStarts pat s`.) -/
def strStarts : Str → Str → Bool
  | [], _ => true
  | _ :: _, [] => false
  | p :: ps, c :: cs => p == c && strStarts ps cs

/-- `strings.Contains s pat = containsSub pat s`: does `pat` occur as a
contiguous substring of `s`? -/
def containsSub (pat : Str) : Str → Bool
  | [] => strStarts pat []
  | c :: cs => strStarts pat (c :: cs) || containsSub pat cs

/-- Does `suf` end the string `s`? (`strings.HasSuffix`.) -/
def strEnds (suf s : Str) : Bool := strStarts suf.reverse s.reverse

/-- `strings.TrimSuffix`. -/
def trimSuffixStr (s suf : Str) : Str :=
  if strEnds suf s then s.take (s.length - suf.length) else s

/-- `strings.EqualFold` (ASCII folding). -/
def eqFold (a b : Str) : Bool := toLowerStr a == toLowerStr b

/-- `strings.ReplaceAll(s, old, new)` for a one-character pattern `old`
and one-character replacement `new`: every occurrence is replaced. -/
def replaceAllOne (old new : Char) : Str → Str
  | [] => []
  | c :: rest => (if c = old then new else c) :: replaceAllOne old new rest

/-- `strings.ReplaceAll(s, "..", "_")`: non-overlapping occurrences of
`".."` are replaced left to right by `"_"`. -/
def replaceDotDot : Str → Str
  | '.' :: '.' :: rest => '_' :: replaceDotDot rest
  | c :: rest => c :: replaceDotDot rest
  | [] => []

/-- `models.SanitizeFilename` from `internal/models/video.go`: the chain of
`strings.ReplaceAll` calls, in source order. -/
def sanitizeFilename (filename : Str) : Str :=
  let f1 := replaceAllOne '/' '_' filename
  let f2 := replaceAllOne '\\' '_' f1
  let f3 := replaceDotDot f2
  let f4 := replaceAllOne ':' '_' f3
  let f5 := replaceAllOne '*' '_' f4
  let f6 := replaceAllOne '?' '_' f5
  let f7 := replaceAllOne '\"' '_' f6
  let f8 := replaceAllOne '<' '_' f7
  let f9 := replaceAllOne '>' '_' f8
  replaceAllOne '|' '_' f9

/-- The characters `SanitizeFilename` must remove (spec §4.4 step 3). -/
def dangerousChars : Str := ['/', '\\', ':', '*', '?', '\"', '<', '>', '|']

/-! ### Go path handling (`path/filepath`, Unix rules)

`SecurePath`, `Join` and the locator candidates depend on Go's `Clean`,
`Join`, `Abs`, `Base` and `Ext`, embedded here for `filepath.Separator = '/'`. -/

/-- `filepath.IsAbs` on Unix. -/
def isAbsPath (p : Str) : Bool :=
  match p with
  | '/' :: _ => true
  | _ => false

/-- Split a path into its `'/'`-separated segments. -/
def splitSegs : Str → List Str
  | [] => [[]]
  | '/' :: rest => [] :: splitSegs rest
  | c :: rest =>
    match splitSegs rest with
    | s :: ss => (c :: s) :: ss
    | [] => [[c]]

/-- The element processing of Go's `filepath.Clean` (Plan 9 rules): drop
empty and `"."` segments, let `".."` cancel the preceding segment, keep
leading `".."`s of a relative path, and drop `".."` at the root.  `acc`
is the output stack, most recent segment first. -/
def cleanSegs (rooted : Bool) : List Str → List Str → List Str
  | acc, [] => acc.reverse
  | acc, s :: rest =>
    if s = [] ∨ s = ['.'] then cleanSegs rooted acc rest
    else if s = ['.', '.'] then
      match acc with
      | [] => if rooted then cleanSegs rooted [] rest else cleanSegs rooted [['.', '.']] rest
      | a :: accRest =>
        if a = ['.', '.'] then cleanSegs rooted (s :: a :: accRest) rest
        else cleanSegs rooted accRest rest
    else cleanSegs rooted (s :: acc) rest

/-- Join segments with `'/'`. -/
def joinSegs : List Str → Str
  | [] => []
  | [s] => s
  | s :: rest => s ++ '/' :: joinSegs rest

/-- Go's `filepath.Clean` on Unix. -/
def cleanPath (p : Str) : Str :=
  let rooted := isAbsPath p
  let out := joinSegs (cleanSegs rooted [] (splitSegs p))
  if rooted then '/' :: out
  else if out = [] then ['.'] else out

/-- Go's `filepath.Join(a, b)`: non-empty elements joined with `'/'`, then
cleaned; all-empty input yields the empty string. -/
def joinPath (a b : Str) : Str :=
  if a = [] ∧ b = [] then []
  else if a = [] then cleanPath b
  else if b = [] then cleanPath a
  else cleanPath (a ++ '/' :: b)

/-- Go's `filepath.Abs` relative to the working directory `cwd` (assumed
absolute; `os.Getwd` failure is not modelled): an absolute path is cleaned,
a relative one is joined to `cwd`. -/
def absPath (cwd p : Str) : Str :=
  if isAbsPath p then cleanPath p else joinPath cwd p

/-- Helper for `filepath.Ext`: walk the reversed path, collecting until the
last dot of the final element; no dot before a separator means no extension. -/
def extOfAux : Str → Str → Str
  | _, [] => []
  | acc, c :: rest =>
    if c = '/' then []
    else if c = '.' then '.' :: acc
    else extOfAux (c :: acc) rest

/-- Go's `filepath.Ext`. -/
def extOf (path : Str) : Str := extOfAux [] path.reverse

/-- Helper for `filepath.Base`: walk the reversed path and collect the last
`'/'`-separated element (the accumulator ends up in forward order). -/
def baseAux : Str → Str → Str
  | acc, [] => acc
  | acc, c :: rest => if c = '/' then acc else baseAux (c :: acc) rest

/-- Go's `filepath.Base` on Unix. -/
def basePath (path : Str) : Str :=
  if path = [] then ['.']
  else
    let trimmed := (path.reverse.dropWhile (fun c => c = '/')).reverse
    if trimmed = [] then ['/']
    else baseAux [] trimmed.reverse

/-! ### Data model -/

/-- `models.Video` from `internal/models/video.go`.  `Duration` (a Go
`float64` that is only stored and compared, never computed with in the
claimed operations) and `CreatedAt` (a `time.Time`) are carried as `Int`. -/
structure Video where
  ID : Str
  Title : Str
  Filename : Str
  FilePath : Str
  FileSize : Int
  Duration : Int
  Thumbnail : Str
  UploadDate : Str
  Uploader : Str
  Description : Str
  URL : Str
  CreatedAt : Int
deriving DecidableEq, Repr

/-- `models.VideoMetadata`: the record decoded from the extractor's
metadata-only run. -/
structure VideoMetadata where
  ID : Str
  Title : Str
  Duration : Int
  Uploader : Str
  UploadDate : Str
  Description : Str
  Thumbnail : Str
  WebpageURL : Str
deriving DecidableEq, Repr

/-- The in-memory map `videos map[string]*models.Video`, as an association
list keyed by id (keys unique in every state the code constructs). -/
abbrev Store := List (Str × Video)

/-- Go map assignment `m[k] = v`: overwrite in place if the key is present,
otherwise add the binding. -/
def mapInsert (m : Store) (k : Str) (v : Video) : Store :=
  if m.any (fun p => p.1 == k) then
    m.map (fun p => if p.1 == k then (k, v) else p)
  else m ++ [(k, v)]

/-- Go map lookup `m[k]`. -/
def lookupStore (m : Store) (k : Str) : Option Video :=
  (m.find? (fun p => p.1 == k)).map Prod.snd

/-- Go `delete(m, k)`. -/
def eraseStore (m : Store) (k : Str) : Store :=
  m.filter (fun p => !(p.1 == k))

/-- The mutable state of a `VideoService`: the in-memory map and the decoded
content of the metadata file on disk (`none` = file absent).  JSON
encoding/decoding of the record list is modelled as the identity on the
decoded value. -/
structure VSState where
  videos : Store
  metaFile : Option (List Video)
deriving DecidableEq, Repr

/-! ### PathGuard: `VideoService.SecurePath` -/

/-- The error value of the traversal branch (the Go message carries the
requested path; the constant tag suffices here). -/
def errPathTraversal : Str := str "path traversal attempt detected"

/-- `VideoService.SecurePath` from `internal/services/video_service.go`
(identical in `src/unnamed/part_002`): clean the request, join it to the
downloads directory, make both absolute, and accept only root itself or a
path with `root ++ "/"` as a string prefix. -/
def securePath (cwd downloadsDir requestedPath : Str) : Except Str Str :=
  let cleanReq := cleanPath requestedPath
  let fullPath := joinPath downloadsDir cleanReq
  let absDownloadsDir := absPath cwd downloadsDir
  let absFullPath := absPath cwd fullPath
  if !(strStarts (absDownloadsDir ++ ['/']) absFullPath) && !(absFullPath == absDownloadsDir) then
    .error errPathTraversal
  else
    .ok absFullPath

/-- Modelled from the spec's words (§4.1/§8), for comparison with the code:
the requested path's "cleaned form, joined to the library root and made
absolute". -/
def resolvedPath (cwd root req : Str) : Str :=
  absPath cwd (joinPath root (cleanPath req))

/-- Modelled from the spec's words (§4.1): a resolved path is inside the
root when it equals the absolute root or extends it past a separator. -/
def insideRoot (cwd root req : Str) : Bool :=
  resolvedPath cwd root req == absPath cwd root ||
    strStarts (absPath cwd root ++ ['/']) (resolvedPath cwd root req)

/-! ### MetadataStore: `SaveMetadata` / `LoadMetadata` -/

/-- `VideoService.SaveMetadata`: serialize the map's values and overwrite
the metadata file; `writeOk = false` is an `os.WriteFile` failure, which
leaves the old file content (partial writes are not modelled). -/
def saveMetadata (writeOk : Bool) (s : VSState) : Except Str VSState :=
  if writeOk then .ok { s with metaFile := some (s.videos.map Prod.snd) }
  else .error (str "write error")

/-- `VideoService.LoadMetadata`: an absent file leaves the map as it is;
otherwise the map is rebuilt from the decoded record list, keyed by each
record's `ID` (read and decode failures are not claimed and not modelled). -/
def loadMetadata (s : VSState) : VSState :=
  match s.metaFile with
  | none => s
  | some videosList => { s with videos := videosList.map (fun v => (v.ID, v)) }

/-! ### The library directory -/

/-- One entry of the downloads directory tree as `filepath.WalkDir` visits
it: its full path, base name, kind, `ModTime().Unix()`, `Size()`, and
whether `d.Info()` succeeds.  A directory listing is the list of such
entries in walk order. -/
structure DirFile where
  path : Str
  name : Str
  isDir : Bool
  modTime : Int
  size : Int
  infoOk : Bool
deriving DecidableEq, Repr

/-- `os.Stat(p)` succeeds iff some entry has that path. -/
def statExists (fs : List DirFile) (p : Str) : Bool :=
  fs.any (fun e => e.path == p)

/-- `os.Stat(p)` as used after the locator: the entry at that path. -/
def statFile (fs : List DirFile) (p : Str) : Option DirFile :=
  fs.find? (fun e => e.path == p)

/-! ### FileLocator: `findDownloadedFile` / `findThumbnailFile`

Embedded from `src/unnamed/part_002` (the variant with the exact-raw-title
step that §4.5 of the spec describes; the copy in
`internal/services/video_service.go` lacks steps 1 and 4). -/

/-- The fixed media extension allow-list. -/
def videoExtensions : List Str :=
  [str ".mp4", str ".mkv", str ".webm", str ".avi", str ".mov", str ".flv", str ".m4v"]

/-- The fixed thumbnail extension allow-list. -/
def thumbExtensions : List Str :=
  [str ".jpg", str ".jpeg", str ".png", str ".webp"]

/-- One candidate loop of the locator: the first extension for which
`filepath.Join(dir, base+ext)` stats successfully. -/
def firstExistingCandidate (fs : List DirFile) (dir base : Str) : List Str → Option Str
  | [] => none
  | ext :: rest =>
    let path := joinPath dir (base ++ ext)
    if statExists fs path then some path else firstExistingCandidate fs dir base rest

/-- In-progress-download markers skipped by the walks. -/
def skipMarkerName (filename : Str) : Bool :=
  containsSub (str ".part") filename || containsSub (str ".ytdl") filename

/-- Case-insensitive membership in the media extension allow-list. -/
def isVideoExt (e : Str) : Bool := videoExtensions.any (fun v => eqFold e v)

/-- Case-insensitive membership in the thumbnail allow-list. -/
def isThumbExt (e : Str) : Bool := thumbExtensions.any (fun v => eqFold e v)

/-- Step 4 of `findDownloadedFile`: the first non-directory, non-partial
media file whose name case-insensitively contains the title or the id. -/
def walkFindByName (title id : Str) : List DirFile → Option Str
  | [] => none
  | d :: rest =>
    if !d.isDir then
      if skipMarkerName d.name then walkFindByName title id rest
      else if isVideoExt (extOf d.path) &&
          (containsSub (toLowerStr title) (toLowerStr d.name) ||
           containsSub (toLowerStr id) (toLowerStr d.name)) then
        some d.path
      else walkFindByName title id rest
    else walkFindByName title id rest

/-- Step 5 of `findDownloadedFile`: the first non-partial media file
modified within the last ten minutes (`time.Since(ModTime()) < 10*Minute`,
times in seconds); a failing `d.Info()` skips the entry. -/
def walkFindRecent (now : Int) : List DirFile → Option Str
  | [] => none
  | d :: rest =>
    if !d.isDir then
      if skipMarkerName d.name then walkFindRecent now rest
      else if isVideoExt (extOf d.path) && (d.infoOk && now - d.modTime < 600) then
        some d.path
      else walkFindRecent now rest
    else walkFindRecent now rest

/-- `VideoService.findDownloadedFile` (`src/unnamed/part_002`): exact raw
title, then sanitized title, then id, then the name-containment walk, then
the recency walk; `none` is the "downloaded file not found" error. -/
def findDownloadedFile (fs : List DirFile) (now : Int) (dir title id : Str) : Option Str :=
  match firstExistingCandidate fs dir title videoExtensions with
  | some p => some p
  | none =>
  match firstExistingCandidate fs dir (sanitizeFilename title) videoExtensions with
  | some p => some p
  | none =>
  match firstExistingCandidate fs dir id videoExtensions with
  | some p => some p
  | none =>
  match walkFindByName title id fs with
  | some p => some p
  | none => walkFindRecent now fs

/-- The walk of `findThumbnailFile`: the first thumbnail-extension file
whose name case-insensitively contains the title or the id (this walk has
no partial-marker skip in the source). -/
def walkFindThumb (title id : Str) : List DirFile → Option Str
  | [] => none
  | d :: rest =>
    if !d.isDir then
      if isThumbExt (extOf d.path) &&
          (containsSub (toLowerStr title) (toLowerStr d.name) ||
           containsSub (toLowerStr id) (toLowerStr d.name)) then
        some d.path
      else walkFindThumb title id rest
    else walkFindThumb title id rest

/-- `VideoService.findThumbnailFile` (`src/unnamed/part_002`): raw title,
sanitized title, id, then the walk; the empty string means "no thumbnail". -/
def findThumbnailFile (fs : List DirFile) (dir title id : Str) : Str :=
  match firstExistingCandidate fs dir title thumbExtensions with
  | some p => p
  | none =>
  match firstExistingCandidate fs dir (sanitizeFilename title) thumbExtensions with
  | some p => p
  | none =>
  match firstExistingCandidate fs dir id thumbExtensions with
  | some p => p
  | none =>
  match walkFindThumb title id fs with
  | some p => p
  | none => []

/-! ### DownloadOrchestrator: `VideoService.DownloadVideo`

The external process and the operating system are the environment: a
`DLWorld` fixes the outcome of each effectful step (metadata extraction,
pipe creation, process start and exit, the directory contents after the
subprocess ran, the clock).  Progress strings sent on the channel do not
affect the store and are not recorded. -/

structure DLWorld where
  /-- `models.ExtractVideoMetadata(url)`: the decoded record, or `none` for
  a non-zero exit / undecodable output. -/
  extractMetadata : Option VideoMetadata
  /-- `cmd.StdoutPipe()` succeeds. -/
  stdoutPipeOk : Bool
  /-- `cmd.StderrPipe()` succeeds. -/
  stderrPipeOk : Bool
  /-- `cmd.Start()` succeeds. -/
  startOk : Bool
  /-- `cmd.Wait()` returns nil (the subprocess exited zero). -/
  waitOk : Bool
  /-- The downloads directory tree after the subprocess ran, in walk order. -/
  fsAfter : List DirFile
  /-- The current time (`time.Now().Unix()`, also used by `time.Since`). -/
  now : Int
  /-- `os.WriteFile` of the metadata file succeeds. -/
  saveOk : Bool
deriving Repr

/-- The `models.Video` record `DownloadVideo` builds once the file is
located and statted. -/
def downloadRecord (w : DLWorld) (dir url : Str) : Option Video :=
  match w.extractMetadata with
  | none => none
  | some metadata =>
    match findDownloadedFile w.fsAfter w.now dir metadata.Title metadata.ID with
    | none => none
    | some downloadedFile =>
      match statFile w.fsAfter downloadedFile with
      | none => none
      | some fileInfo =>
        some { ID := metadata.ID
               Title := metadata.Title
               Filename := basePath downloadedFile
               FilePath := downloadedFile
               FileSize := fileInfo.size
               Duration := metadata.Duration
               Thumbnail := findThumbnailFile w.fsAfter dir metadata.Title metadata.ID
               UploadDate := metadata.UploadDate
               Uploader := metadata.Uploader
               Description := metadata.Description
               URL := url
               CreatedAt := w.now }

/-- `VideoService.DownloadVideo` (`internal/services/video_service.go`,
identical in `src/unnamed/part_002`), with each return site kept: the
result and the service state after the call. -/
def downloadVideo (w : DLWorld) (dir url : Str) (s : VSState) : Except Str Unit × VSState :=
  match w.extractMetadata with
  | none => (.error (str "failed to extract metadata"), s)
  | some metadata =>
    -- filename is computed as a naming hint and, as in the source, not used
    -- further (yt-dlp is invoked with its own output template).
    let filename := if sanitizeFilename metadata.Title = [] then metadata.ID
                    else sanitizeFilename metadata.Title
    if !w.stdoutPipeOk then (.error (str "stdout pipe error"), s)
    else if !w.stderrPipeOk then (.error (str "stderr pipe error"), s)
    else if !w.startOk then (.error (str "start error"), s)
    else if !w.waitOk then (.error (str "download failed"), s)
    else
      match findDownloadedFile w.fsAfter w.now dir metadata.Title metadata.ID with
      | none => (.error (str "failed to find downloaded file"), s)
      | some downloadedFile =>
        match statFile w.fsAfter downloadedFile with
        | none => (.error (str "failed to get file info"), s)
        | some fileInfo =>
          let video : Video :=
            { ID := metadata.ID
              Title := metadata.Title
              Filename := basePath downloadedFile
              FilePath := downloadedFile
              FileSize := fileInfo.size
              Duration := metadata.Duration
              Thumbnail := findThumbnailFile w.fsAfter dir metadata.Title metadata.ID
              UploadDate := metadata.UploadDate
              Uploader := metadata.Uploader
              Description := metadata.Description
              URL := url
              CreatedAt := w.now }
          let videos2 := mapInsert s.videos video.ID video
          match saveMetadata w.saveOk { videos := videos2, metaFile := s.metaFile } with
          | .ok s2 => (.ok (), s2)
          | .error _ => (.error (str "failed to save metadata"),
                         { videos := videos2, metaFile := s.metaFile })

/-- A failure of any `DownloadVideo` step before the store commit. -/
def downloadPreFailure (w : DLWorld) (dir : Str) : Bool :=
  match w.extractMetadata with
  | none => true
  | some metadata =>
    !w.stdoutPipeOk || !w.stderrPipeOk || !w.startOk || !w.waitOk ||
      (match findDownloadedFile w.fsAfter w.now dir metadata.Title metadata.ID with
       | none => true
       | some downloadedFile => (statFile w.fsAfter downloadedFile).isNone)

/-! ### `VideoService.DeleteVideo` -/

/-- The disk as `os.Remove` sees it: the set of existing paths, plus the
paths whose removal fails for a reason other than absence (permissions,
busy mounts, ...), which the code distinguishes via `os.IsNotExist`. -/
structure DiskState where
  files : List Str
  failing : List Str
deriving DecidableEq, Repr

inductive RmOutcome where
  | ok
  | errNotExist
  | errOther
deriving DecidableEq, Repr

/-- `os.Remove(p)`. -/
def osRemove (d : DiskState) (p : Str) : RmOutcome × DiskState :=
  if d.failing.any (fun q => q == p) then (.errOther, d)
  else if d.files.any (fun q => q == p) then
    (.ok, { d with files := d.files.filter (fun q => !(q == p)) })
  else (.errNotExist, d)

/-- `VideoService.DeleteVideo` (`internal/services/video_service.go`,
identical in `src/unnamed/part_002`): look the id up, remove the video file
(an error passing `os.IsNotExist` is tolerated, any other error is
surfaced), remove the thumbnail ignoring errors, drop the entry from the
map and persist.  `saveOk` is the `SaveMetadata` write outcome. -/
def deleteVideo (s : VSState) (d : DiskState) (saveOk : Bool) (id : Str) :
    Except Str Unit × VSState × DiskState :=
  match lookupStore s.videos id with
  | none => (.error (str "video not found"), s, d)
  | some video =>
    let r1 := osRemove d video.FilePath
    match r1.1 with
    | .errOther => (.error (str "failed to remove video file"), s, r1.2)
    | _ =>
      let d2 := if !(video.Thumbnail == []) then (osRemove r1.2 video.Thumbnail).2 else r1.2
      let videos2 := eraseStore s.videos id
      match saveMetadata saveOk { videos := videos2, metaFile := s.metaFile } with
      | .ok s2 => (.ok (), s2, d2)
      | .error _ => (.error (str "failed to save metadata"),
                     { videos := videos2, metaFile := s.metaFile }, d2)

/-! ### LibraryScanner: `VideoService.ScanForExistingVideos`
(`src/unnamed/part_002`; this repository copy is the only one with the
scanner). -/

/-- The synthesized id `existing_<basename>_<unixModTime>`. -/
def synthVideoId (f : DirFile) : Str :=
  str "existing_" ++ trimSuffixStr f.name (extOf f.name) ++ str "_" ++ (toString f.modTime).toList

/-- The record the scanner registers for a discovered file. -/
def mkExistingVideo (fs : List DirFile) (dir : Str) (f : DirFile) : Video :=
  let ext := extOf f.name
  let baseFilename := trimSuffixStr f.name ext
  let videoID := synthVideoId f
  { ID := videoID
    Title := baseFilename
    Filename := f.name
    FilePath := f.path
    FileSize := f.size
    Duration := 0
    Thumbnail := findThumbnailFile fs dir baseFilename videoID
    UploadDate := []
    Uploader := []
    Description := str "Existing video file"
    URL := []
    CreatedAt := f.modTime }

/-- The body of the scanner's `WalkDir` closure for one entry, in source
order: skip directories and the metadata file, skip partial markers, skip
non-media extensions, skip files already indexed by exact stored file path,
skip entries whose `Info()` fails, and otherwise register the synthesized
record under its synthesized id. -/
def scanStep (dir : Str) (fs : List DirFile) (store : Store) (f : DirFile) : Store :=
  if f.isDir || f.name == str "metadata.json" then store
  else if skipMarkerName f.name then store
  else if !(isVideoExt (extOf f.name)) then store
  else if store.any (fun p => p.2.FilePath == f.path) then store
  else if !f.infoOk then store
  else mapInsert store (synthVideoId f) (mkExistingVideo fs dir f)

/-- `VideoService.ScanForExistingVideos`: fold the closure over the walk. -/
def scanForExistingVideos (dir : Str) (fs : List DirFile) (store : Store) : Store :=
  fs.foldl (scanStep dir fs) store

/-- An entry the scanner would register into an empty store: every skip
condition except the already-indexed check. -/
def scanEligible (f : DirFile) : Bool :=
  !(f.isDir || f.name == str "metadata.json") && !skipMarkerName f.name &&
    isVideoExt (extOf f.name) && f.infoOk

/-! ### `models.Video.FormatFileSize` -/

/-- The unit-name array of `FormatFileSize`. -/
def fileSizeUnitNames : List Str := [str "B", str "KB", str "MB", str "GB", str "TB"]

/-- The loop `for n := size/unit; n >= unit; n /= unit { exp++ }` of
`FormatFileSize` (`unit = 1024`). -/
def fileSizeExp (n : Int) (exp : Nat) : Nat :=
  if 1024 ≤ n then fileSizeExp (n / 1024) (exp + 1) else exp
termination_by n.toNat
decreasing_by omega

/-- The unit-selection part of `FormatFileSize`: `"Unknown"` for
non-positive sizes, `"B"` below 1024, and otherwise the element at index
`exp+1` of the five-element unit array — `none` when that index is out of
bounds, which in Go is a runtime panic.  (The `strconv.FormatFloat` number
prefix is floating point and cannot fault; it is not modelled.) -/
def formatFileSizeUnit (size : Int) : Option Str :=
  if size ≤ 0 then some (str "Unknown")
  else if size < 1024 then some (str "B")
  else fileSizeUnitNames.get? (fileSizeExp (size / 1024) 0 + 1)

/-! ### The standalone variant: `handleVideoDownload` (`cmd/web/main.go`)

This variant buffers the subprocess output, enforces a 30-minute budget via
`select` on the command's completion channel and `time.After`, and keeps no
metadata store. -/

structure DownloadError where
  type : Str
  message : Str
  details : Str
  code : Nat
deriving DecidableEq, Repr

def errorTypeValidation : Str := str "validation_error"
def errorTypeNetwork : Str := str "network_error"
def errorTypeNotFound : Str := str "not_found_error"
def errorTypePermission : Str := str "permission_error"
def errorTypeUnknown : Str := str "unknown_error"

/-- `parseYtDlpError` from `cmd/web/main.go`: categorize stderr text. -/
def parseYtDlpError (stderrText : Str) : DownloadError :=
  let stderrLower := toLowerStr stderrText
  if containsSub (str "network") stderrLower || containsSub (str "connection") stderrLower ||
      containsSub (str "timeout") stderrLower || containsSub (str "dns") stderrLower then
    { type := errorTypeNetwork, message := str "Network error occurred during download",
      details := stderrText, code := 502 }
  else if containsSub (str "video unavailable") stderrLower ||
      containsSub (str "not available") stderrLower ||
      containsSub (str "private video") stderrLower ||
      containsSub (str "removed") stderrLower || containsSub (str "deleted") stderrLower ||
      containsSub (str "404") stderrLower then
    { type := errorTypeNotFound, message := str "Video not found or unavailable",
      details := stderrText, code := 404 }
  else if containsSub (str "permission") stderrLower ||
      containsSub (str "access denied") stderrLower ||
      containsSub (str "forbidden") stderrLower || containsSub (str "401") stderrLower ||
      containsSub (str "403") stderrLower then
    { type := errorTypePermission, message := str "Access denied or permission error",
      details := stderrText, code := 403 }
  else if containsSub (str "unsupported url") stderrLower ||
      containsSub (str "no video formats") stderrLower ||
      containsSub (str "extractor") stderrLower then
    { type := errorTypeValidation, message := str "Unsupported URL or no extractors available",
      details := stderrText, code := 400 }
  else
    { type := errorTypeUnknown, message := str "Unknown error occurred during download",
      details := stderrText, code := 500 }

/-- The error returned by the `time.After(30 * time.Minute)` branch. -/
def timeoutError : DownloadError :=
  { type := errorTypeNetwork, message := str "Download timeout exceeded",
    details := str "Download took longer than 30m0s", code := 408 }

/-- The environment of one `handleVideoDownload` call.  `validateURL`,
`ensureVideosDirectory` and `checkYtDlpBinary` touch the network stack and
the file system; their results are supplied.  `runOutcome` is the
subprocess: `some (ok, stderr)` when `cmd.Run()` finishes within the
30-minute budget, `none` when the subprocess is still running at the
deadline. -/
structure CmdWorld where
  validateErr : Option DownloadError
  dirErr : Option DownloadError
  binaryErr : Option DownloadError
  runOutcome : Option (Bool × Str)
deriving Repr

/-- `handleVideoDownload` from `cmd/web/main.go`: the returned error (or
`none` on success) and whether `cmd.Process.Kill()` was invoked.  In the
timeout branch the subprocess is still running, so `cmd.Process` is
non-nil and the kill fires. -/
def handleVideoDownload (w : CmdWorld) (link : Str) : Option DownloadError × Bool :=
  match w.validateErr with
  | some e => (some e, false)
  | none =>
  match w.dirErr with
  | some e => (some e, false)
  | none =>
  match w.binaryErr with
  | some e => (some e, false)
  | none =>
  match w.runOutcome with
  | some (ok, stderrText) =>
    if ok then (none, false) else (some (parseYtDlpError stderrText), false)
  | none => (some timeoutError, true)

/-! ### Read operations -/

/-- `VideoService.GetAllVideos`, with the state threaded to state the frame
property. -/
def getAllVideos (s : VSState) : List Video × VSState :=
  (s.videos.map Prod.snd, s)

/-- `VideoService.SearchVideos`: case-insensitive substring match on title,
uploader and description. -/
def searchVideos (query : Str) (s : VSState) : List Video × VSState :=
  let q := toLowerStr query
  ((s.videos.map Prod.snd).filter (fun video =>
      containsSub q (toLowerStr video.Title) || containsSub q (toLowerStr video.Uploader) ||
        containsSub q (toLowerStr video.Description)), s)

/-- `VideoService.GetVideo`. -/
def getVideo (id : Str) (s : VSState) : Option Video × VSState :=
  (lookupStore s.videos id, s)


/-- Decidable equality for `Except` results, so that concrete runs can be
checked by `decide`. -/
instance (α β : Type) [DecidableEq α] [DecidableEq β] : DecidableEq (Except α β) :=
  fun a b =>
    match a, b with
    | .ok x, .ok y => if h : x = y then .isTrue (by rw [h]) else .isFalse (by simp [h])
    | .error x, .error y => if h : x = y then .isTrue (by rw [h]) else .isFalse (by simp [h])
    | .ok _, .error _ => .isFalse (by simp)
    | .error _, .ok _ => .isFalse (by simp)

/-! ### Concrete fixtures used by witnesses and counterexamples -/

/-- A store entry for the delete scenarios; its video file will be absent
from the disk. -/
def vC3 : Video :=
  { ID := str "vid1", Title := str "Clip", Filename := str "x.mp4",
    FilePath := str "/d/x.mp4", FileSize := 1, Duration := 0, Thumbnail := [],
    UploadDate := [], Uploader := [], Description := [], URL := [], CreatedAt := 0 }

/-- A service state holding only `vC3`, consistently persisted. -/
def sC3 : VSState := { videos := [(str "vid1", vC3)], metaFile := some [vC3] }

/-- A disk on which `vC3`'s video file does not exist. -/
def dC3 : DiskState := { files := [], failing := [] }

/-- Extractor metadata for the download scenarios. -/
def mdC2 : VideoMetadata :=
  { ID := str "abc", Title := str "t", Duration := 0, Uploader := [],
    UploadDate := [], Description := [], Thumbnail := [], WebpageURL := [] }

/-- The downloads directory after the subprocess wrote `t.mp4`. -/
def fileC2 : DirFile :=
  { path := str "/d/t.mp4", name := str "t.mp4", isDir := false, modTime := 0,
    size := 5, infoOk := true }

/-- A download world where every step succeeds except the final store write. -/
def wC2 : DLWorld :=
  { extractMetadata := some mdC2, stdoutPipeOk := true, stderrPipeOk := true,
    startOk := true, waitOk := true, fsAfter := [fileC2], now := 0, saveOk := false }

/-- A download world where metadata extraction fails. -/
def wC2pre : DLWorld :=
  { extractMetadata := none, stdoutPipeOk := true, stderrPipeOk := true,
    startOk := true, waitOk := true, fsAfter := [], now := 0, saveOk := true }

/-- Directory files for the scanner scenarios. -/
def fileA : DirFile :=
  { path := str "/d/a.mp4", name := str "a.mp4", isDir := false, modTime := 1,
    size := 10, infoOk := true }

/-- Second directory file for the scanner scenarios. -/
def fileB : DirFile :=
  { path := str "/d/b.mp4", name := str "b.mp4", isDir := false, modTime := 2,
    size := 20, infoOk := true }

/-- A stale store entry whose key equals `fileB`'s synthesized id while
recording `fileA`'s path. -/
def staleB : Video :=
  { ID := str "existing_b_2", Title := str "stale", Filename := str "a.mp4",
    FilePath := str "/d/a.mp4", FileSize := 10, Duration := 0, Thumbnail := [],
    UploadDate := [], Uploader := [], Description := [], URL := [], CreatedAt := 0 }

/-! ### Reduction lemmas for `replaceDotDot` -/

theorem replaceDotDot_nil : replaceDotDot [] = [] := rfl

theorem replaceDotDot_dotdot (rest : Str) :
    replaceDotDot ('.' :: '.' :: rest) = '_' :: replaceDotDot rest := by
  simp [replaceDotDot]

theorem replaceDotDot_cons_ne (c : Char) (rest : Str)
    (h : ∀ rest2, c = '.' → rest = '.' :: rest2 → False) :
    replaceDotDot (c :: rest) = c :: replaceDotDot rest := by
  rcases rest with _ | ⟨c2, rest2⟩
  · simp [replaceDotDot]
  · by_cases hc : c = '.'
    · by_cases hc2 : c2 = '.'
      · exact (h rest2 hc (by rw [hc2])).elim
      · subst hc
        simp [replaceDotDot, hc2]
    · simp [replaceDotDot, hc]

theorem replaceAllOne_eq_map (old new : Char) (s : Str) :
    replaceAllOne old new s = s.map (fun c => if c = old then new else c) := by
  induction s with
  | nil => rfl
  | cons c rest ih => simp [replaceAllOne, ih]

theorem not_mem_replaceAllOne (old new : Char) (s : Str) (h : old ≠ new) :
    old ∉ replaceAllOne old new s := by
  rw [replaceAllOne_eq_map]
  intro hmem
  rcases List.mem_map.mp hmem with ⟨c, _, hc⟩
  by_cases hco : c = old
  · rw [if_pos hco] at hc
    exact h hc.symm
  · rw [if_neg hco] at hc
    exact hco hc

theorem not_mem_replaceAllOne_of_not_mem (x old new : Char) (s : Str)
    (hx : x ≠ new) (hs : x ∉ s) : x ∉ replaceAllOne old new s := by
  rw [replaceAllOne_eq_map]
  intro hmem
  rcases List.mem_map.mp hmem with ⟨c, hcs, hc⟩
  by_cases hco : c = old
  · rw [if_pos hco] at hc
    exact hx hc.symm
  · rw [if_neg hco] at hc
    exact hs (hc ▸ hcs)

theorem mem_replaceDotDot (x : Char) (s : Str) (h : x ∈ replaceDotDot s) : x = '_' ∨ x ∈ s := by
  induction s using replaceDotDot.induct with
  | case1 rest ih =>
    rw [replaceDotDot_dotdot] at h
    rcases List.mem_cons.mp h with h | h
    · exact Or.inl h
    · rcases ih h with h2 | h2
      · exact Or.inl h2
      · exact Or.inr (by simp [h2])
  | case2 c rest hne ih =>
    rw [replaceDotDot_cons_ne c rest hne] at h
    rcases List.mem_cons.mp h with h | h
    · exact Or.inr (by simp [h])
    · rcases ih h with h2 | h2
      · exact Or.inl h2
      · exact Or.inr (by simp [h2])
  | case3 => simp [replaceDotDot] at h

theorem not_mem_replaceDotDot_of_not_mem (x : Char) (s : Str) (hx : x ≠ '_') (hs : x ∉ s) :
    x ∉ replaceDotDot s := by
  intro hmem
  rcases mem_replaceDotDot x s hmem with h | h
  · exact hx h
  · exact hs h

theorem strStarts_single (ch : Char) (t : Str) : strStarts [ch] t = (t.head? == some ch) := by
  rcases t with _ | ⟨c, rest⟩
  · rfl
  · simp [strStarts, Option.some.injEq]
    constructor
    · intro h
      simp [h]
    · intro h
      simp [h]

theorem replaceDotDot_head_cases (t : Str) :
    (replaceDotDot t).head? = t.head? ∨ (replaceDotDot t).head? = some '_' := by
  rcases t with _ | ⟨c, _ | ⟨c2, rest2⟩⟩
  · exact Or.inl rfl
  · rw [replaceDotDot_cons_ne c [] (by intro r h1 h2; cases h2)]
    exact Or.inl rfl
  · by_cases hc : c = '.'
    · by_cases hc2 : c2 = '.'
      · subst hc
        subst hc2
        rw [replaceDotDot_dotdot]
        exact Or.inr rfl
      · rw [replaceDotDot_cons_ne c (c2 :: rest2)
          (by intro r h1 h2; exact hc2 (List.cons.inj h2).1)]
        exact Or.inl rfl
    · rw [replaceDotDot_cons_ne c (c2 :: rest2) (by intro r h1 h2; exact hc h1)]
      exact Or.inl rfl

theorem containsSub_dd_replaceDotDot (s : Str) :
    containsSub ['.', '.'] (replaceDotDot s) = false := by
  induction s using replaceDotDot.induct with
  | case1 rest ih =>
    rw [replaceDotDot_dotdot]
    simp [containsSub, strStarts, ih]
  | case2 c rest hne ih =>
    rw [replaceDotDot_cons_ne c rest hne]
    simp only [containsSub, ih, Bool.or_false]
    simp only [strStarts, strStarts_single]
    by_cases hc : c = '.'
    · subst hc
      simp only [beq_self_eq_true, Bool.true_and]
      rcases replaceDotDot_head_cases rest with hh | hh
      · rw [hh]
        rcases rest with _ | ⟨d, r2⟩
        · rfl
        · have hd : d ≠ '.' := by
            intro hdd
            exact hne r2 rfl (by rw [hdd])
          simp [hd]
      · rw [hh]
        simp
    · have hcc : (('.' : Char) == c) = false := by
        simp only [beq_eq_false_iff_ne, ne_eq]
        intro hh
        exact hc hh.symm
      simp [hcc]
  | case3 => rfl

theorem containsSub_dd_replaceAllOne (old new : Char) (s : Str) (hnew : new ≠ '.')
    (h : containsSub ['.', '.'] s = false) :
    containsSub ['.', '.'] (replaceAllOne old new s) = false := by
  induction s with
  | nil => exact h
  | cons c rest ih =>
    simp only [containsSub, Bool.or_eq_false_iff] at h
    simp only [replaceAllOne, containsSub, Bool.or_eq_false_iff]
    refine ⟨?_, ih h.2⟩
    by_cases hco : c = old
    · by_cases hrec : (if c = old then new else c) = '.'
      · rw [if_pos hco] at hrec
        exact (hnew hrec).elim
      · simp only [strStarts]
        rw [if_pos hco]
        have : ¬(('.' : Char) == new) = true := by
          simp only [beq_iff_eq]
          intro hh
          exact hnew hh.symm
        simp [this]
    · simp only [strStarts]
      rw [if_neg hco]
      have h1 := h.1
      simp only [strStarts] at h1
      rcases Bool.and_eq_false_iff.mp h1 with h2 | h2
      · simp [h2]
      · rcases rest with _ | ⟨d, r2⟩
        · simp [replaceAllOne, strStarts]
        · simp only [replaceAllOne, strStarts] at h2 ⊢
          rcases Bool.and_eq_false_iff.mp h2 with h3 | h3
          · by_cases hdo : d = old
            · rw [if_pos hdo]
              have : ¬(('.' : Char) == new) = true := by
                simp only [beq_iff_eq]
                intro hh
                exact hnew hh.symm
              simp [this]
            · rw [if_neg hdo]
              simp [h3]
          · simp at h3


theorem mem_replaceAllOne_cases (x old new : Char) (s : Str) (h : x ∈ replaceAllOne old new s) :
    x = new ∨ (x ∈ s ∧ x ≠ old) := by
  rw [replaceAllOne_eq_map] at h
  rcases List.mem_map.mp h with ⟨c, hcs, hc⟩
  by_cases hco : c = old
  · rw [if_pos hco] at hc
    exact Or.inl hc.symm
  · rw [if_neg hco] at hc
    subst hc
    exact Or.inr ⟨hcs, hco⟩

theorem mem_sanitizeFilename_cases (s : Str) (x : Char) (hx : x ∈ sanitizeFilename s) :
    x = '_' ∨ x ∉ dangerousChars := by
  simp only [sanitizeFilename] at hx
  rcases mem_replaceAllOne_cases _ _ _ _ hx with h | ⟨hx, hpipe⟩
  · exact Or.inl h
  rcases mem_replaceAllOne_cases _ _ _ _ hx with h | ⟨hx, hgt⟩
  · exact Or.inl h
  rcases mem_replaceAllOne_cases _ _ _ _ hx with h | ⟨hx, hlt⟩
  · exact Or.inl h
  rcases mem_replaceAllOne_cases _ _ _ _ hx with h | ⟨hx, hquot⟩
  · exact Or.inl h
  rcases mem_replaceAllOne_cases _ _ _ _ hx with h | ⟨hx, hques⟩
  · exact Or.inl h
  rcases mem_replaceAllOne_cases _ _ _ _ hx with h | ⟨hx, hstar⟩
  · exact Or.inl h
  rcases mem_replaceAllOne_cases _ _ _ _ hx with h | ⟨hx, hcolon⟩
  · exact Or.inl h
  rcases mem_replaceDotDot x _ hx with h | hx
  · exact Or.inl h
  rcases mem_replaceAllOne_cases _ _ _ _ hx with h | ⟨hx, hbsl⟩
  · exact Or.inl h
  rcases mem_replaceAllOne_cases _ _ _ _ hx with h | ⟨hx, hsl⟩
  · exact Or.inl h
  refine Or.inr ?_
  simp only [dangerousChars, List.mem_cons, List.not_mem_nil, or_false]
  intro hcon
  rcases hcon with h | h | h | h | h | h | h | h | h
  · exact hsl h
  · exact hbsl h
  · exact hcolon h
  · exact hstar h
  · exact hques h
  · exact hquot h
  · exact hlt h
  · exact hgt h
  · exact hpipe h

/-- C7: for every input string, `SanitizeFilename` returns a string with
none of the characters `/ \ : * ? " < > |` and no `".."` substring. -/
theorem sanitizeFilename_safe (s : Str) :
    (sanitizeFilename s).any (fun x => dangerousChars.contains x) = false ∧
    containsSub (str "..") (sanitizeFilename s) = false := by
  constructor
  · rw [List.any_eq_false]
    intro x hx hcon
    have hxmem : x ∈ dangerousChars := List.mem_of_elem_eq_true hcon
    rcases mem_sanitizeFilename_cases s x hx with h | h
    · subst h
      exact absurd hxmem (by decide)
    · exact h hxmem
  · have hdd : str ".." = ['.', '.'] := by decide
    rw [hdd]
    simp only [sanitizeFilename]
    apply containsSub_dd_replaceAllOne _ _ _ (by decide)
    apply containsSub_dd_replaceAllOne _ _ _ (by decide)
    apply containsSub_dd_replaceAllOne _ _ _ (by decide)
    apply containsSub_dd_replaceAllOne _ _ _ (by decide)
    apply containsSub_dd_replaceAllOne _ _ _ (by decide)
    apply containsSub_dd_replaceAllOne _ _ _ (by decide)
    apply containsSub_dd_replaceAllOne _ _ _ (by decide)
    exact containsSub_dd_replaceDotDot _

/-! ### C6: metadata round trip -/

/-- C6: on a store whose map is keyed by each record's id (the invariant
every code path maintains), `SaveMetadata` followed by `LoadMetadata`
reproduces the identical id-to-entry mapping. -/
theorem saveMetadata_loadMetadata_roundtrip (s : VSState)
    (hkeys : ∀ p ∈ s.videos, p.1 = p.2.ID) :
    ∃ t, saveMetadata true s = .ok t ∧ (loadMetadata t).videos = s.videos := by
  refine ⟨{ s with metaFile := some (s.videos.map Prod.snd) }, rfl, ?_⟩
  simp only [loadMetadata]
  rw [List.map_map]
  have h : ∀ p ∈ s.videos, ((fun v => (v.ID, v)) ∘ Prod.snd) p = id p := by
    intro p hp
    show (p.2.ID, p.2) = p
    rw [← hkeys p hp]
  rw [List.map_congr_left h, List.map_id]

/-- Witness for C6 on a two-entry store with empty optional fields. -/
theorem saveMetadata_loadMetadata_roundtrip_witness :
    ∃ t, saveMetadata true
        { videos :=
            [(str "id1", { ID := str "id1", Title := str "A", Filename := str "a.mp4",
                           FilePath := str "/d/a.mp4", FileSize := 7, Duration := 3,
                           Thumbnail := str "/d/a.jpg", UploadDate := str "20240101",
                           Uploader := str "u", Description := str "d", URL := str "http",
                           CreatedAt := 11 }),
             (str "id2", { ID := str "id2", Title := [], Filename := [],
                           FilePath := [], FileSize := 0, Duration := 0,
                           Thumbnail := [], UploadDate := [], Uploader := [],
                           Description := [], URL := [], CreatedAt := 0 })],
          metaFile := none } = .ok t ∧
      (loadMetadata t).videos =
        [(str "id1", { ID := str "id1", Title := str "A", Filename := str "a.mp4",
                       FilePath := str "/d/a.mp4", FileSize := 7, Duration := 3,
                       Thumbnail := str "/d/a.jpg", UploadDate := str "20240101",
                       Uploader := str "u", Description := str "d", URL := str "http",
                       CreatedAt := 11 }),
         (str "id2", { ID := str "id2", Title := [], Filename := [],
                       FilePath := [], FileSize := 0, Duration := 0,
                       Thumbnail := [], UploadDate := [], Uploader := [],
                       Description := [], URL := [], CreatedAt := 0 })] :=
  saveMetadata_loadMetadata_roundtrip _ (by decide)

/-! ### C10: read operations do not mutate -/

/-- C10: `GetAllVideos`, `SearchVideos` and `GetVideo` leave the in-memory
map and the metadata file exactly as they were. -/
theorem reads_preserve_state (s : VSState) (query id : Str) :
    (getAllVideos s).2 = s ∧ (searchVideos query s).2 = s ∧ (getVideo id s).2 = s :=
  ⟨rfl, rfl, rfl⟩

/-! ### C4: locator resolution order -/

/-- C4: when the directory holds both `<title>.mp4` and `<id>.mp4`,
`findDownloadedFile` returns the exact raw-title candidate, not the id
candidate. -/
theorem findDownloadedFile_rawTitle_first (fs : List DirFile) (now : Int) (dir title id : Str)
    (h1 : statExists fs (joinPath dir (title ++ str ".mp4")) = true)
    (h2 : statExists fs (joinPath dir (id ++ str ".mp4")) = true) :
    findDownloadedFile fs now dir title id = some (joinPath dir (title ++ str ".mp4")) := by
  simp [findDownloadedFile, firstExistingCandidate, videoExtensions, h1]

/-- Witness for C4: `demo.mp4` and `abc.mp4` both present. -/
theorem findDownloadedFile_rawTitle_first_witness :
    findDownloadedFile
        [{ path := str "/d/demo.mp4", name := str "demo.mp4", isDir := false,
           modTime := 0, size := 1, infoOk := true },
         { path := str "/d/abc.mp4", name := str "abc.mp4", isDir := false,
           modTime := 0, size := 1, infoOk := true }]
        0 (str "/d") (str "demo") (str "abc") =
      some (joinPath (str "/d") (str "demo" ++ str ".mp4")) :=
  findDownloadedFile_rawTitle_first _ _ _ _ _ (by decide) (by decide)

/-! ### C5: subprocess timeout -/

/-- C5: when validation, directory setup and the binary check pass but the
subprocess does not finish within the 30-minute budget, the handler kills
the subprocess and returns the timeout error (HTTP 408, "Download timeout
exceeded"); this program variant keeps no metadata store, so no entry can
be added. -/
theorem handleVideoDownload_timeout (w : CmdWorld) (link : Str)
    (hv : w.validateErr = none) (hd : w.dirErr = none) (hb : w.binaryErr = none)
    (hr : w.runOutcome = none) :
    handleVideoDownload w link = (some timeoutError, true) := by
  simp [handleVideoDownload, hv, hd, hb, hr]

/-- Witness for C5. -/
theorem handleVideoDownload_timeout_witness :
    handleVideoDownload { validateErr := none, dirErr := none, binaryErr := none,
                          runOutcome := none } (str "https://example.com/v") =
      (some timeoutError, true) :=
  handleVideoDownload_timeout _ _ rfl rfl rfl rfl

/-! ### C9: FormatFileSize unit index -/

/-- C9 (code bug): at one pebibyte (`2^50` bytes, a legal `int64` file
size) the loop yields `exp = 4`, the code indexes the five-element unit
array at `exp + 1 = 5`, and the Go program panics; the model returns
`none` there. -/
theorem formatFileSizeUnit_oob_at_pib :
    formatFileSizeUnit 1125899906842624 = none := by
  have h1 : fileSizeExp 1099511627776 0 = 4 := by
    rw [fileSizeExp]
    norm_num
    rw [fileSizeExp]
    norm_num
    rw [fileSizeExp]
    norm_num
    rw [fileSizeExp]
    norm_num
    rw [fileSizeExp]
    norm_num
  have hdiv : (1125899906842624 : Int) / 1024 = 1099511627776 := by norm_num
  have hpos : ¬((1125899906842624 : Int) ≤ 0) := by norm_num
  have hbig : ¬((1125899906842624 : Int) < 1024) := by norm_num
  rw [formatFileSizeUnit, if_neg hpos, if_neg hbig, hdiv, h1]
  decide

/-- Just below the overflow boundary the index is still in range: the last
representable unit, `"TB"`, is selected. -/
theorem formatFileSizeUnit_tb_below_pib :
    formatFileSizeUnit 1125899906842623 = some (str "TB") := by
  have h1 : fileSizeExp 1099511627775 0 = 3 := by
    rw [fileSizeExp]
    norm_num
    rw [fileSizeExp]
    norm_num
    rw [fileSizeExp]
    norm_num
    rw [fileSizeExp]
    norm_num
  have hdiv : (1125899906842623 : Int) / 1024 = 1099511627775 := by norm_num
  have hpos : ¬((1125899906842623 : Int) ≤ 0) := by norm_num
  have hbig : ¬((1125899906842623 : Int) < 1024) := by norm_num
  rw [formatFileSizeUnit, if_neg hpos, if_neg hbig, hdiv, h1]
  decide


/-! ### C3: deleting an entry whose video file is missing -/

/-- C3 counterexample: with `vC3` in the store but its video file absent
from the disk, `DeleteVideo` does not fail — `os.IsNotExist` errors on the
video file are swallowed — and instead removes the entry and persists; the
claim predicted the delete fails. -/
theorem deleteVideo_missing_file_counterexample :
    deleteVideo sC3 dC3 true (str "vid1") =
      (.ok (), { videos := [], metaFile := some [] }, dC3) := by decide

/-- C3 amended: a missing video file is tolerated exactly like a missing
thumbnail; only a removal error that does not pass `os.IsNotExist`
(modelled by `failing`) aborts the delete, leaving store and disk
untouched.  Otherwise — whether or not the video file existed — the entry
is removed from memory and the updated store is persisted. -/
theorem deleteVideo_missing_tolerated (s : VSState) (d : DiskState) (id : Str) (video : Video)
    (hlook : lookupStore s.videos id = some video) :
    (d.failing.any (fun q => q == video.FilePath) = true →
      deleteVideo s d true id = (.error (str "failed to remove video file"), s, d)) ∧
    (d.failing.any (fun q => q == video.FilePath) = false →
      deleteVideo s d true id =
        (.ok (), { videos := eraseStore s.videos id,
                   metaFile := some ((eraseStore s.videos id).map Prod.snd) },
         if !(video.Thumbnail == []) then
           (osRemove (osRemove d video.FilePath).2 video.Thumbnail).2
         else (osRemove d video.FilePath).2)) := by
  constructor
  · intro hf
    simp [deleteVideo, hlook, osRemove, hf]
  · intro hf
    by_cases hex : d.files.any (fun q => q == video.FilePath) = true
    · simp [deleteVideo, hlook, osRemove, hf, hex, saveMetadata]
    · rw [Bool.not_eq_true] at hex
      simp [deleteVideo, hlook, osRemove, hf, hex, saveMetadata]

/-- Witness for the amended C3, at a store entry whose video file is
missing and whose thumbnail is empty. -/
theorem deleteVideo_missing_tolerated_witness :
    deleteVideo sC3 dC3 true (str "vid1") =
      (.ok (), { videos := eraseStore sC3.videos (str "vid1"),
                 metaFile := some ((eraseStore sC3.videos (str "vid1")).map Prod.snd) },
       if !(vC3.Thumbnail == []) then
         (osRemove (osRemove dC3 vC3.FilePath).2 vC3.Thumbnail).2
       else (osRemove dC3 vC3.FilePath).2) :=
  (deleteVideo_missing_tolerated sC3 dC3 (str "vid1") vC3 (by decide)).2 (by decide)


/-! ### C2: no partial record on failure -/

/-- C2 counterexample: with every step succeeding except the final
`SaveMetadata` write, `DownloadVideo` returns an error and yet the new
entry is visible through `GetAllVideos`; the claim said the entry set is
unchanged on every failure. -/
theorem downloadVideo_saveFail_counterexample :
    (downloadVideo wC2 (str "/d") (str "u") { videos := [], metaFile := none }).1 =
      .error (str "failed to save metadata") ∧
    (getAllVideos (downloadVideo wC2 (str "/d") (str "u")
        { videos := [], metaFile := none }).2).1 ≠
      (getAllVideos { videos := [], metaFile := none }).1 := by decide

/-- C2 amended: every failure of a step before the store commit (metadata
extraction, either pipe, start, non-zero exit, locating the file, stat)
returns an error and leaves the service state — in-memory map and metadata
file — exactly as before.  When all of those succeed but persisting fails,
an error is returned and the metadata file is unchanged, but the freshly
built record stays committed in the in-memory map. -/
theorem downloadVideo_failure_frames (w : DLWorld) (dir url : Str) (s : VSState) :
    (downloadPreFailure w dir = true →
      (∃ e, (downloadVideo w dir url s).1 = .error e) ∧
        (downloadVideo w dir url s).2 = s) ∧
    (downloadPreFailure w dir = false → w.saveOk = false →
      ∃ video, downloadRecord w dir url = some video ∧
        downloadVideo w dir url s =
          (.error (str "failed to save metadata"),
           { videos := mapInsert s.videos video.ID video, metaFile := s.metaFile })) := by
  obtain ⟨em, so, se, st, wa, fsA, now, sv⟩ := w
  cases em with
  | none => exact ⟨fun _ => ⟨⟨_, rfl⟩, rfl⟩, fun hpf _ => absurd hpf (by simp [downloadPreFailure])⟩
  | some md =>
    cases so <;> cases se <;> cases st <;> cases wa <;>
      try exact ⟨fun _ => ⟨⟨_, rfl⟩, rfl⟩, fun hpf _ => absurd hpf (by simp [downloadPreFailure])⟩
    cases hf : findDownloadedFile fsA now dir md.Title md.ID with
    | none =>
      refine ⟨fun _ => ⟨⟨str "failed to find downloaded file", ?_⟩, ?_⟩,
        fun hpf _ => absurd hpf (by simp [downloadPreFailure, hf])⟩ <;>
        simp [downloadVideo, hf]
    | some f =>
      cases hst : statFile fsA f with
      | none =>
        refine ⟨fun _ => ⟨⟨str "failed to get file info", ?_⟩, ?_⟩,
          fun hpf _ => absurd hpf (by simp [downloadPreFailure, hf, hst])⟩ <;>
          simp [downloadVideo, hf, hst]
      | some info =>
        cases sv with
        | true =>
          constructor
          · intro hpf
            simp [downloadPreFailure, hf, hst] at hpf
          · intro _ hsv
            cases hsv
        | false =>
          constructor
          · intro hpf
            simp [downloadPreFailure, hf, hst] at hpf
          · intro _ _
            refine ⟨{ ID := md.ID, Title := md.Title, Filename := basePath f, FilePath := f,
                      FileSize := info.size, Duration := md.Duration,
                      Thumbnail := findThumbnailFile fsA dir md.Title md.ID,
                      UploadDate := md.UploadDate, Uploader := md.Uploader,
                      Description := md.Description, URL := url, CreatedAt := now }, ?_, ?_⟩
            · simp [downloadRecord, hf, hst]
            · simp [downloadVideo, hf, hst, saveMetadata]

/-- Witness for the amended C2: a failed metadata extraction leaves the
state untouched. -/
theorem downloadVideo_failure_frames_witness :
    (∃ e, (downloadVideo wC2pre (str "/d") (str "u") sC3).1 = .error e) ∧
      (downloadVideo wC2pre (str "/d") (str "u") sC3).2 = sC3 :=
  (downloadVideo_failure_frames wC2pre (str "/d") (str "u") sC3).1 (by decide)


/-! ### C8: scanner idempotence -/

theorem scanStep_not_eligible (dir : Str) (fs : List DirFile) (S : Store) (f : DirFile)
    (h : scanEligible f = false) : scanStep dir fs S f = S := by
  unfold scanStep
  by_cases h1 : (f.isDir || (f.name == str "metadata.json")) = true
  · simp [h1]
  · rw [Bool.not_eq_true] at h1
    by_cases h2 : skipMarkerName f.name = true
    · simp [h1, h2]
    · rw [Bool.not_eq_true] at h2
      by_cases h3 : isVideoExt (extOf f.name) = true
      · have h4 : f.infoOk = false := by
          simp only [scanEligible, h1, h2, h3] at h
          simpa using h
        by_cases h5 : S.any (fun p => p.2.FilePath == f.path) = true
        · simp [h1, h2, h3, h5]
        · rw [Bool.not_eq_true] at h5
          simp [h1, h2, h3, h4, h5]
      · rw [Bool.not_eq_true] at h3
        simp [h1, h2, h3]

theorem scanEligible_split (f : DirFile) (h : scanEligible f = true) :
    (f.isDir || (f.name == str "metadata.json")) = false ∧ skipMarkerName f.name = false ∧
      isVideoExt (extOf f.name) = true ∧ f.infoOk = true := by
  simp only [scanEligible, Bool.and_eq_true, Bool.not_eq_true'] at h
  exact ⟨h.1.1.1, h.1.1.2, h.1.2, h.2⟩

theorem scanStep_indexed (dir : Str) (fs : List DirFile) (S : Store) (f : DirFile)
    (he : scanEligible f = true) (hp : S.any (fun q => q.2.FilePath == f.path) = true) :
    scanStep dir fs S f = S := by
  obtain ⟨h1, h2, h3, _⟩ := scanEligible_split f he
  unfold scanStep
  simp [h1, h2, h3, hp]

theorem scanStep_insert (dir : Str) (fs : List DirFile) (S : Store) (f : DirFile)
    (he : scanEligible f = true) (hp : S.any (fun q => q.2.FilePath == f.path) = false)
    (hk : S.any (fun p => p.1 == synthVideoId f) = false) :
    scanStep dir fs S f = S ++ [(synthVideoId f, mkExistingVideo fs dir f)] := by
  obtain ⟨h1, h2, h3, h4⟩ := scanEligible_split f he
  unfold scanStep
  simp [h1, h2, h3, h4, hp, mapInsert, hk]

theorem keyFresh_push (g : DirFile) (v : Video) (rest : List DirFile) (S : Store)
    (hg : ∀ f ∈ rest.filter scanEligible, synthVideoId g ≠ synthVideoId f)
    (hfresh : ∀ f ∈ rest, scanEligible f = true →
      S.any (fun p => p.1 == synthVideoId f) = false) :
    ∀ f ∈ rest, scanEligible f = true →
      (S ++ [(synthVideoId g, v)]).any (fun p => p.1 == synthVideoId f) = false := by
  intro f hf he
  rw [List.any_append]
  have hne : synthVideoId g ≠ synthVideoId f :=
    hg f (List.mem_filter.mpr ⟨hf, he⟩)
  simp [hfresh f hf he, hne]

theorem scan_fold_append (dir : Str) (fs : List DirFile) :
    ∀ (l : List DirFile) (S : Store),
      (l.filter scanEligible).Pairwise (fun f g => synthVideoId f ≠ synthVideoId g) →
      (∀ f ∈ l, scanEligible f = true →
        S.any (fun p => p.1 == synthVideoId f) = false) →
      ∃ ext, l.foldl (scanStep dir fs) S = S ++ ext := by
  intro l
  induction l with
  | nil => exact fun S _ _ => ⟨[], by simp⟩
  | cons g rest ih =>
    intro S hpw hfresh
    rw [List.foldl_cons]
    by_cases he : scanEligible g = true
    · have hpw2 := hpw
      rw [List.filter_cons, if_pos he, List.pairwise_cons] at hpw2
      by_cases hp : S.any (fun q => q.2.FilePath == g.path) = true
      · rw [scanStep_indexed dir fs S g he hp]
        exact ih S hpw2.2 (fun f hf hfe => hfresh f (List.mem_cons_of_mem g hf) hfe)
      · rw [Bool.not_eq_true] at hp
        rw [scanStep_insert dir fs S g he hp (hfresh g (List.mem_cons_self g rest) he)]
        obtain ⟨ext, hext⟩ := ih (S ++ [(synthVideoId g, mkExistingVideo fs dir g)]) hpw2.2
          (keyFresh_push g (mkExistingVideo fs dir g) rest S hpw2.1
            (fun f hf hfe => hfresh f (List.mem_cons_of_mem g hf) hfe))
        exact ⟨[(synthVideoId g, mkExistingVideo fs dir g)] ++ ext, by
          rw [hext, List.append_assoc]⟩
    · rw [Bool.not_eq_true] at he
      rw [scanStep_not_eligible dir fs S g he]
      have hpw2 := hpw
      rw [List.filter_cons, if_neg (by simp [he])] at hpw2
      exact ih S hpw2 (fun f hf hfe => hfresh f (List.mem_cons_of_mem g hf) hfe)

theorem scan_indexes_all (dir : Str) (fs : List DirFile) :
    ∀ (l : List DirFile) (S : Store),
      (l.filter scanEligible).Pairwise (fun f g => synthVideoId f ≠ synthVideoId g) →
      (∀ f ∈ l, scanEligible f = true →
        S.any (fun p => p.1 == synthVideoId f) = false) →
      ∀ f ∈ l, scanEligible f = true →
        (l.foldl (scanStep dir fs) S).any (fun q => q.2.FilePath == f.path) = true := by
  intro l
  induction l with
  | nil =>
    intro S _ _ f hf
    exact absurd hf (List.not_mem_nil f)
  | cons g rest ih =>
    intro S hpw hfresh f hf he
    rw [List.foldl_cons]
    by_cases heg : scanEligible g = true
    · have hpw2 := hpw
      rw [List.filter_cons, if_pos heg, List.pairwise_cons] at hpw2
      by_cases hp : S.any (fun q => q.2.FilePath == g.path) = true
      · rw [scanStep_indexed dir fs S g heg hp]
        rcases List.mem_cons.mp hf with rfl | hf2
        · obtain ⟨ext, hext⟩ := scan_fold_append dir fs rest S hpw2.2
            (fun x hx hxe => hfresh x (List.mem_cons_of_mem f hx) hxe)
          rw [hext, List.any_append, hp]
          rfl
        · exact ih S hpw2.2 (fun x hx hxe => hfresh x (List.mem_cons_of_mem g hx) hxe) f hf2 he
      · rw [Bool.not_eq_true] at hp
        rw [scanStep_insert dir fs S g heg hp (hfresh g (List.mem_cons_self g rest) heg)]
        have hfresh2 := keyFresh_push g (mkExistingVideo fs dir g) rest S hpw2.1
          (fun x hx hxe => hfresh x (List.mem_cons_of_mem g hx) hxe)
        rcases List.mem_cons.mp hf with rfl | hf2
        · obtain ⟨ext, hext⟩ := scan_fold_append dir fs rest
            (S ++ [(synthVideoId f, mkExistingVideo fs dir f)]) hpw2.2 hfresh2
          rw [hext, List.any_append, List.any_append]
          have hown : [(synthVideoId f, mkExistingVideo fs dir f)].any
              (fun q => q.2.FilePath == f.path) = true := by
            simp [mkExistingVideo]
          rw [hown]
          simp
        · exact ih (S ++ [(synthVideoId g, mkExistingVideo fs dir g)]) hpw2.2 hfresh2 f hf2 he
    · rw [Bool.not_eq_true] at heg
      rw [scanStep_not_eligible dir fs S g heg]
      have hpw2 := hpw
      rw [List.filter_cons, if_neg (by simp [heg])] at hpw2
      rcases List.mem_cons.mp hf with rfl | hf2
      · exact absurd he (by simp [heg])
      · exact ih S hpw2 (fun x hx hxe => hfresh x (List.mem_cons_of_mem g hx) hxe) f hf2 he

theorem scan_skip_all (dir : Str) (fs : List DirFile) :
    ∀ (l : List DirFile) (S : Store),
      (∀ f ∈ l, scanEligible f = true →
        S.any (fun q => q.2.FilePath == f.path) = true) →
      l.foldl (scanStep dir fs) S = S := by
  intro l
  induction l with
  | nil =>
    intro S _
    rfl
  | cons g rest ih =>
    intro S hidx
    rw [List.foldl_cons]
    have hstep : scanStep dir fs S g = S := by
      by_cases he : scanEligible g = true
      · exact scanStep_indexed dir fs S g he (hidx g (List.mem_cons_self g rest) he)
      · rw [Bool.not_eq_true] at he
        exact scanStep_not_eligible dir fs S g he
    rw [hstep]
    exact ih S (fun f hf hfe => hidx f (List.mem_cons_of_mem g hf) hfe)

/-- C8 amended: when the synthesized ids of the eligible directory files
are pairwise distinct and none of them already keys the store, running
`ScanForExistingVideos` twice over the unchanged directory equals running
it once: the first run indexes every eligible file by exact path, so the
second run registers nothing.  (Without the key-freshness hypothesis the
statement is false: a stale store entry at a colliding synthesized id is
overwritten by the first run, and the second run resurrects the entry it
displaced — see the counterexample.) -/
theorem scanForExistingVideos_idempotent (dir : Str) (fs : List DirFile) (store : Store)
    (hids : (fs.filter scanEligible).Pairwise (fun f g => synthVideoId f ≠ synthVideoId g))
    (hfresh : ∀ f ∈ fs, scanEligible f = true →
      store.any (fun p => p.1 == synthVideoId f) = false) :
    scanForExistingVideos dir fs (scanForExistingVideos dir fs store) =
      scanForExistingVideos dir fs store := by
  unfold scanForExistingVideos
  exact scan_skip_all dir fs fs _
    (fun f hf he => scan_indexes_all dir fs fs store hids hfresh f hf he)

/-- Witness for the amended C8: two fresh files over an empty store. -/
theorem scanForExistingVideos_idempotent_witness :
    scanForExistingVideos (str "/d") [fileA, fileB]
        (scanForExistingVideos (str "/d") [fileA, fileB] []) =
      scanForExistingVideos (str "/d") [fileA, fileB] [] :=
  scanForExistingVideos_idempotent (str "/d") [fileA, fileB] [] (by decide) (by decide)

/-- C8 counterexample: over the directory `[fileA, fileB]` and the initial
store `[(existing_b_2, staleB)]` — a key that collides with `fileB`'s
synthesized id while recording `fileA`'s path — the store after the second
run differs from the store after the first, refuting the claim as stated. -/
theorem scanForExistingVideos_twice_counterexample :
    scanForExistingVideos (str "/d") [fileA, fileB]
        (scanForExistingVideos (str "/d") [fileA, fileB] [(str "existing_b_2", staleB)]) ≠
      scanForExistingVideos (str "/d") [fileA, fileB] [(str "existing_b_2", staleB)] := by
  decide


/-- C1: `SecurePath` fails exactly on requests whose cleaned form, joined
to the downloads directory and made absolute, is neither the absolute root
itself nor an extension of the absolute root past a path separator; on the
accepted requests it returns that resolved absolute path. -/
theorem securePath_spec (cwd downloadsDir requestedPath : Str) :
    securePath cwd downloadsDir requestedPath =
      if insideRoot cwd downloadsDir requestedPath then
        .ok (resolvedPath cwd downloadsDir requestedPath)
      else .error errPathTraversal := by
  simp only [securePath, insideRoot, resolvedPath]
  cases hs : strStarts (absPath cwd downloadsDir ++ ['/'])
      (absPath cwd (joinPath downloadsDir (cleanPath requestedPath))) <;>
    cases he : (absPath cwd (joinPath downloadsDir (cleanPath requestedPath)) ==
      absPath cwd downloadsDir) <;>
    simp [hs, he]

end Ute
